import Mathlib

/-!
Verification of the connection/session/rate-limit core of the
appointment-booking demo: the token-bucket rate limiter
(`rate_limit.py`), the WebSocket connection manager (`websocket/manager.py`)
and the WebSocket auth gate (`websocket/auth.py`).

The embedding is shallow: wall-clock time is passed explicitly as a
rational `now`, Python floats become rationals, Python dicts become
association lists with dict semantics (unique keys, insertion order),
and a delivery attempt on a connection handle succeeds or throws
according to the handle's `sendOk` flag.
-/

namespace AppointmentCore

/-! ## TokenBucket (rate_limit.py, lines 34-80) -/

/-- State of `TokenBucket`: `capacity : int`, `refill_rate : float`
(tokens per second), `tokens : float`, `last_refill : float`
(seconds, wall clock). -/
structure TokenBucket where
  capacity : ℤ
  refill_rate : ℚ
  tokens : ℚ
  last_refill : ℚ
  deriving Repr, DecidableEq

/-- Dataclass construction followed by `__post_init__`, which sets
`self.tokens = float(self.capacity)`; `last_refill` defaults to
`time.time()`, i.e. the construction instant `now`. -/
def TokenBucket.create (capacity : ℤ) (refill_rate : ℚ) (now : ℚ) : TokenBucket :=
  { capacity := capacity, refill_rate := refill_rate,
    tokens := (capacity : ℚ), last_refill := now }

/-- `TokenBucket.consume(tokens=n)` at wall-clock instant `now`:
`elapsed = now - last_refill`; `last_refill = now`;
`tokens = min(capacity, tokens + elapsed * refill_rate)`;
if `tokens >= n` subtract `n` and return `True`, else return `False`. -/
def TokenBucket.consume (b : TokenBucket) (n : ℤ) (now : ℚ) : TokenBucket × Bool :=
  let elapsed := now - b.last_refill
  let refilled := min ((b.capacity : ℚ)) (b.tokens + elapsed * b.refill_rate)
  if (n : ℚ) ≤ refilled then
    ({ b with tokens := refilled - (n : ℚ), last_refill := now }, true)
  else
    ({ b with tokens := refilled, last_refill := now }, false)

/-- `TokenBucket.time_until_available(tokens=n)`: `0.0` when
`tokens >= n`, else `(n - tokens) / refill_rate`.  Reads the state only. -/
def TokenBucket.time_until_available (b : TokenBucket) (n : ℤ) : ℚ :=
  if (n : ℚ) ≤ b.tokens then 0
  else ((n : ℚ) - b.tokens) / b.refill_rate

/-- `k` successive `consume(1)` calls, all at the same instant `now`;
returns the final bucket and whether every call returned `True`. -/
def TokenBucket.consumeOnes : TokenBucket → ℕ → ℚ → TokenBucket × Bool
  | b, 0, _ => (b, true)
  | b, k + 1, now =>
    let r := b.consume 1 now
    let rest := TokenBucket.consumeOnes r.1 k now
    (rest.1, r.2 && rest.2)

/-- Run a trace of `consume` calls against a bucket: each trace entry
`(d, n)` advances the wall clock by `d` seconds and then calls
`consume(n)`.  `t` is the current wall-clock instant. -/
def TokenBucket.runTrace : TokenBucket → List (ℚ × ℤ) → ℚ → TokenBucket
  | b, [], _ => b
  | b, (d, n) :: rest, t => TokenBucket.runTrace ((b.consume n (t + d)).1) rest (t + d)

theorem consume_capacity (b : TokenBucket) (n : ℤ) (now : ℚ) :
    (b.consume n now).1.capacity = b.capacity := by
  unfold TokenBucket.consume
  dsimp only
  split <;> rfl

theorem consume_refill_rate (b : TokenBucket) (n : ℤ) (now : ℚ) :
    (b.consume n now).1.refill_rate = b.refill_rate := by
  unfold TokenBucket.consume
  dsimp only
  split <;> rfl

theorem consume_last_refill (b : TokenBucket) (n : ℤ) (now : ℚ) :
    (b.consume n now).1.last_refill = now := by
  unfold TokenBucket.consume
  dsimp only
  split <;> rfl

/-- C3: `consume(n)` at instant `now` sets `last_refill` to `now`,
refills `tokens` to `min(capacity, tokens + (now - last_refill) * refill_rate)`,
then, when the refilled balance covers `n`, subtracts `n` and returns
`true`; otherwise returns `false` and leaves the balance at the refilled
value (no partial consumption).  `capacity` and `refill_rate` are untouched. -/
theorem consume_spec (b : TokenBucket) (n : ℤ) (now : ℚ) :
    (b.consume n now).1.last_refill = now ∧
    (b.consume n now).1.capacity = b.capacity ∧
    (b.consume n now).1.refill_rate = b.refill_rate ∧
    ((n : ℚ) ≤ min ((b.capacity : ℚ)) (b.tokens + (now - b.last_refill) * b.refill_rate) →
      (b.consume n now).2 = true ∧
      (b.consume n now).1.tokens =
        min ((b.capacity : ℚ)) (b.tokens + (now - b.last_refill) * b.refill_rate) - (n : ℚ)) ∧
    (min ((b.capacity : ℚ)) (b.tokens + (now - b.last_refill) * b.refill_rate) < (n : ℚ) →
      (b.consume n now).2 = false ∧
      (b.consume n now).1.tokens =
        min ((b.capacity : ℚ)) (b.tokens + (now - b.last_refill) * b.refill_rate)) := by
  refine ⟨consume_last_refill b n now, consume_capacity b n now,
    consume_refill_rate b n now, ?_, ?_⟩ <;>
    intro h <;> unfold TokenBucket.consume <;> dsimp only
  · rw [if_pos h]
    exact ⟨rfl, rfl⟩
  · rw [if_neg (not_le.mpr h)]
    exact ⟨rfl, rfl⟩

theorem consume_spec_witness :
    ((1 : ℚ) ≤ min (((5 : ℤ) : ℚ))
      ((5 : ℚ) + ((0 : ℚ) - (0 : ℚ)) * (1 : ℚ)) ∧
      ((TokenBucket.create 5 1 0).consume 1 0).2 = true) ∧
    (min (((5 : ℤ) : ℚ)) ((5 : ℚ) + ((0 : ℚ) - (0 : ℚ)) * (2 : ℚ)) < (7 : ℚ) ∧
      ((TokenBucket.create 5 2 0).consume 7 0).2 = false) := by
  have h1 := (consume_spec (TokenBucket.create 5 1 0) 1 0).2.2.2.1
  have h2 := (consume_spec (TokenBucket.create 5 2 0) 7 0).2.2.2.2
  refine ⟨⟨by norm_num, ?_⟩, ⟨by norm_num, ?_⟩⟩
  · exact (h1 (by norm_num [TokenBucket.create])).1
  · exact (h2 (by norm_num [TokenBucket.create])).1

theorem consumeOnes_drain (C : ℤ) (r t : ℚ) :
    ∀ (k : ℕ) (tok : ℚ), (k : ℚ) ≤ tok → tok ≤ (C : ℚ) →
      TokenBucket.consumeOnes ⟨C, r, tok, t⟩ k t = (⟨C, r, tok - (k : ℚ), t⟩, true) := by
  intro k
  induction k with
  | zero => intro tok _ _; simp [TokenBucket.consumeOnes]
  | succ k ih =>
    intro tok hk hC
    have h1 : (1 : ℚ) ≤ tok := by
      have hk0 : (0 : ℚ) ≤ (k : ℚ) := Nat.cast_nonneg k
      push_cast at hk
      linarith
    have hmin : min ((C : ℚ)) (tok + (t - t) * r) = tok := by
      rw [show tok + (t - t) * r = tok by ring]
      exact min_eq_right hC
    have hcons : TokenBucket.consume ⟨C, r, tok, t⟩ 1 t = (⟨C, r, tok - 1, t⟩, true) := by
      unfold TokenBucket.consume
      dsimp only
      rw [hmin, if_pos (by exact_mod_cast h1)]
      norm_num
    have hrest := ih (tok - 1) (by push_cast at hk ⊢; linarith) (by linarith)
    unfold TokenBucket.consumeOnes
    rw [hcons]
    dsimp only
    rw [hrest]
    push_cast
    rw [show tok - 1 - (k : ℚ) = tok - ((k : ℚ) + 1) by ring]
    rfl

/-- C5: a bucket freshly created with capacity `C` at instant `t`
satisfies `C` consecutive `consume(1)` calls at `t`; the `(C+1)`-th
`consume(1)` at `t` returns `false`; `time_until_available(1)` at that
instant equals `1 / refill_rate`; and `time_until_available(n)` reads
the state only, returning `0` when `tokens ≥ n` and
`(n - tokens) / refill_rate` otherwise. -/
theorem burst_then_fail (C : ℕ) (r t : ℚ) (hr : 0 < r) :
    (TokenBucket.consumeOnes (TokenBucket.create (C : ℤ) r t) C t).2 = true ∧
    (((TokenBucket.consumeOnes (TokenBucket.create (C : ℤ) r t) C t).1).consume 1 t).2
      = false ∧
    ((((TokenBucket.consumeOnes (TokenBucket.create (C : ℤ) r t) C t).1).consume
      1 t).1).time_until_available 1 = 1 / r ∧
    (∀ (b : TokenBucket) (n : ℤ), (n : ℚ) ≤ b.tokens →
      b.time_until_available n = 0) ∧
    (∀ (b : TokenBucket) (n : ℤ), b.tokens < (n : ℚ) →
      b.time_until_available n = ((n : ℚ) - b.tokens) / b.refill_rate) := by
  have hdrain := consumeOnes_drain (C : ℤ) r t C (((C : ℤ) : ℚ))
    (by push_cast; exact le_refl _) (le_refl _)
  have hcreate : TokenBucket.create (C : ℤ) r t = ⟨(C : ℤ), r, ((C : ℤ) : ℚ), t⟩ := rfl
  have hzero : ((C : ℤ) : ℚ) - ((C : ℕ) : ℚ) = 0 := by push_cast; ring
  have hrun : TokenBucket.consumeOnes (TokenBucket.create (C : ℤ) r t) C t
      = (⟨(C : ℤ), r, 0, t⟩, true) := by
    rw [hcreate, hdrain, hzero]
  have hfail : TokenBucket.consume ⟨(C : ℤ), r, 0, t⟩ 1 t = (⟨(C : ℤ), r, 0, t⟩, false) := by
    unfold TokenBucket.consume
    dsimp only
    have hmin : min (((C : ℤ) : ℚ)) (0 + (t - t) * r) = 0 := by
      rw [show (0 : ℚ) + (t - t) * r = 0 by ring]
      exact min_eq_right (by positivity)
    rw [hmin, if_neg (by norm_num)]
  refine ⟨by rw [hrun], by rw [hrun]; dsimp only; rw [hfail], ?_, ?_, ?_⟩
  · rw [hrun]
    dsimp only
    rw [hfail]
    unfold TokenBucket.time_until_available
    dsimp only
    rw [if_neg (by norm_num)]
    norm_num
  · intro b n h
    unfold TokenBucket.time_until_available
    rw [if_pos h]
  · intro b n h
    unfold TokenBucket.time_until_available
    rw [if_neg (not_le.mpr h)]

theorem burst_then_fail_witness :
    (0 < (2 : ℚ)) ∧
    (TokenBucket.consumeOnes (TokenBucket.create ((3 : ℕ) : ℤ) 2 0) 3 0).2 = true ∧
    (((TokenBucket.consumeOnes (TokenBucket.create ((3 : ℕ) : ℤ) 2 0) 3 0).1).consume
      1 0).2 = false ∧
    ((((TokenBucket.consumeOnes (TokenBucket.create ((3 : ℕ) : ℤ) 2 0) 3 0).1).consume
      1 0).1).time_until_available 1 = 1 / 2 := by
  have h := burst_then_fail 3 2 0 (by norm_num)
  exact ⟨by norm_num, h.1, h.2.1, h.2.2.1⟩

/-- Invariant carried through a trace of `consume` calls: the balance is
in `[0, capacity]`, the bucket's clock is not ahead of the wall clock,
and rate and capacity are non-negative. -/
def TokenBucket.Good (b : TokenBucket) (t : ℚ) : Prop :=
  0 ≤ b.tokens ∧ b.tokens ≤ (b.capacity : ℚ) ∧ b.last_refill ≤ t ∧
    0 ≤ b.refill_rate ∧ 0 ≤ b.capacity

theorem consume_good (b : TokenBucket) (t d : ℚ) (n : ℤ)
    (hb : b.Good t) (hd : 0 ≤ d) (hn : 0 ≤ n) :
    ((b.consume n (t + d)).1).Good (t + d) := by
  obtain ⟨h0, hcap, hlr, hrate, hcap0⟩ := hb
  have helapsed : 0 ≤ (t + d) - b.last_refill := by linarith
  have hrefill0 : 0 ≤ b.tokens + ((t + d) - b.last_refill) * b.refill_rate := by
    have := mul_nonneg helapsed hrate
    linarith
  have hcapQ : (0 : ℚ) ≤ (b.capacity : ℚ) := by exact_mod_cast hcap0
  have hmin0 : 0 ≤ min ((b.capacity : ℚ))
      (b.tokens + ((t + d) - b.last_refill) * b.refill_rate) :=
    le_min hcapQ hrefill0
  have hminC : min ((b.capacity : ℚ))
      (b.tokens + ((t + d) - b.last_refill) * b.refill_rate) ≤ (b.capacity : ℚ) :=
    min_le_left _ _
  have hnQ : (0 : ℚ) ≤ (n : ℚ) := by exact_mod_cast hn
  unfold TokenBucket.consume
  dsimp only
  split
  case isTrue h =>
    exact ⟨by dsimp only; linarith, by dsimp only; linarith,
      le_refl _, hrate, hcap0⟩
  case isFalse h =>
    exact ⟨hmin0, hminC, le_refl _, hrate, hcap0⟩

theorem runTrace_good :
    ∀ (calls : List (ℚ × ℤ)) (b : TokenBucket) (t : ℚ),
      b.Good t → (∀ c ∈ calls, 0 ≤ c.1 ∧ 0 ≤ c.2) →
      ∃ t', (TokenBucket.runTrace b calls t).Good t' := by
  intro calls
  induction calls with
  | nil => intro b t hb _; exact ⟨t, hb⟩
  | cons c rest ih =>
    intro b t hb hcalls
    obtain ⟨d, n⟩ := c
    have hc := hcalls (d, n) (List.mem_cons_self _ _)
    have hstep := consume_good b t d n hb hc.1 hc.2
    exact ih _ (t + d) hstep (fun c hc => hcalls c (List.mem_cons_of_mem _ hc))

/-- C4: starting from a freshly created bucket with capacity `C ≥ 1` and
refill rate `r > 0`, the token balance stays in `[0, C]` along every
trace of `consume` calls interleaved with non-negative time advances
(the wall clock is monotone, each call requests a non-negative number of
tokens).  Since the statement holds for every such trace, it holds in
particular for every prefix of a trace, i.e. after every call. -/
theorem tokens_in_range (C : ℤ) (r t0 : ℚ) (calls : List (ℚ × ℤ))
    (hC : 1 ≤ C) (hr : 0 < r) (hcalls : ∀ c ∈ calls, 0 ≤ c.1 ∧ 0 ≤ c.2) :
    0 ≤ (TokenBucket.runTrace (TokenBucket.create C r t0) calls t0).tokens ∧
    (TokenBucket.runTrace (TokenBucket.create C r t0) calls t0).tokens ≤
      ((TokenBucket.runTrace (TokenBucket.create C r t0) calls t0).capacity : ℚ) := by
  have hCQ : (0 : ℚ) ≤ (C : ℚ) := by exact_mod_cast le_trans zero_le_one hC
  have hgood : (TokenBucket.create C r t0).Good t0 :=
    ⟨hCQ, le_refl _, le_refl _, le_of_lt hr, le_trans zero_le_one hC⟩
  obtain ⟨t', h⟩ := runTrace_good calls (TokenBucket.create C r t0) t0 hgood hcalls
  exact ⟨h.1, h.2.1⟩

theorem tokens_in_range_witness :
    ((1 : ℤ) ≤ 2 ∧ (0 : ℚ) < 1 ∧
      (∀ c ∈ [((0 : ℚ), (1 : ℤ)), ((0 : ℚ), (1 : ℤ)), ((0 : ℚ), (5 : ℤ)),
        ((3 : ℚ), (2 : ℤ))], 0 ≤ c.1 ∧ 0 ≤ c.2)) ∧
    (0 ≤ (TokenBucket.runTrace (TokenBucket.create 2 1 0)
        [((0 : ℚ), (1 : ℤ)), ((0 : ℚ), (1 : ℤ)), ((0 : ℚ), (5 : ℤ)),
          ((3 : ℚ), (2 : ℤ))] 0).tokens ∧
      (TokenBucket.runTrace (TokenBucket.create 2 1 0)
        [((0 : ℚ), (1 : ℤ)), ((0 : ℚ), (1 : ℤ)), ((0 : ℚ), (5 : ℤ)),
          ((3 : ℚ), (2 : ℤ))] 0).tokens ≤
        ((TokenBucket.runTrace (TokenBucket.create 2 1 0)
          [((0 : ℚ), (1 : ℤ)), ((0 : ℚ), (1 : ℤ)), ((0 : ℚ), (5 : ℤ)),
            ((3 : ℚ), (2 : ℤ))] 0).capacity : ℚ)) := by
  refine ⟨⟨by norm_num, by norm_num, by decide⟩, ?_⟩
  exact tokens_in_range 2 1 0 _ (by norm_num) (by norm_num) (by decide)

/-! ## Python dicts as association lists -/

/-- A Python `dict[str, α]`: unique keys, insertion order. -/
abbrev Assoc (α : Type) := List (String × α)

/-- `d.get(key)` / `d[key]` lookup. -/
def lookupA {α : Type} : Assoc α → String → Option α
  | [], _ => none
  | (k, v) :: rest, key => if k = key then some v else lookupA rest key

/-- `d[key] = v`: replace in place if the key is present, else append. -/
def insertA {α : Type} : Assoc α → String → α → Assoc α
  | [], key, v => [(key, v)]
  | (k, w) :: rest, key, v =>
    if k = key then (k, v) :: rest else (k, w) :: insertA rest key v

/-- `d.pop(key, None)`: drop the key's entry if present. -/
def eraseA {α : Type} (m : Assoc α) (key : String) : Assoc α :=
  m.filter (fun p => p.1 != key)

theorem lookupA_insertA_self {α : Type} (m : Assoc α) (k : String) (v : α) :
    lookupA (insertA m k v) k = some v := by
  induction m with
  | nil => simp [insertA, lookupA]
  | cons p rest ih =>
    obtain ⟨k', w⟩ := p
    by_cases h : k' = k
    · simp [insertA, h, lookupA]
    · simp [insertA, h, lookupA, ih]

theorem lookupA_insertA_ne {α : Type} (m : Assoc α) (k k' : String) (v : α)
    (h : k ≠ k') : lookupA (insertA m k v) k' = lookupA m k' := by
  induction m with
  | nil => simp [insertA, lookupA, h]
  | cons p rest ih =>
    obtain ⟨k0, w⟩ := p
    by_cases h0 : k0 = k
    · subst h0
      simp [insertA, lookupA, h]
    · simp only [insertA, if_neg h0, lookupA]
      by_cases h1 : k0 = k'
      · simp [h1]
      · simp [h1, ih]

theorem lookupA_eraseA_self {α : Type} (m : Assoc α) (k : String) :
    lookupA (eraseA m k) k = none := by
  induction m with
  | nil => simp [eraseA, lookupA]
  | cons p rest ih =>
    obtain ⟨k0, w⟩ := p
    simp only [eraseA, List.filter_cons] at ih ⊢
    by_cases h0 : k0 = k
    · subst h0
      rw [if_neg (by simp)]
      exact ih
    · rw [if_pos (by simp [h0])]
      simp only [lookupA, if_neg h0]
      exact ih

theorem lookupA_eraseA_ne {α : Type} (m : Assoc α) (k k' : String)
    (h : k ≠ k') : lookupA (eraseA m k) k' = lookupA m k' := by
  induction m with
  | nil => simp [eraseA, lookupA]
  | cons p rest ih =>
    obtain ⟨k0, w⟩ := p
    simp only [eraseA, List.filter_cons] at ih ⊢
    by_cases h0 : k0 = k
    · subst h0
      rw [if_neg (by simp)]
      rw [ih]
      simp only [lookupA, if_neg h]
    · rw [if_pos (by simp [h0])]
      simp only [lookupA]
      by_cases h1 : k0 = k'
      · simp [h1]
      · simp [h1, ih]

/-! ## RateLimiter (rate_limit.py, lines 18-151) -/

/-- `RateLimitConfig` dataclass. -/
structure RateLimitConfig where
  http_requests_per_minute : ℤ
  http_burst_limit : ℤ
  ws_messages_per_minute : ℤ
  ws_burst_limit : ℤ
  enabled : Bool
  deriving Repr, DecidableEq

/-- The dataclass field defaults of `RateLimitConfig`. -/
def RateLimitConfig.defaults : RateLimitConfig :=
  { http_requests_per_minute := 60, http_burst_limit := 10,
    ws_messages_per_minute := 30, ws_burst_limit := 5, enabled := true }

/-- `RateLimiter` state: the config plus the two `defaultdict` pools
`_http_buckets` and `_ws_buckets` (both start empty). -/
structure RateLimiter where
  config : RateLimitConfig
  http_buckets : Assoc TokenBucket
  ws_buckets : Assoc TokenBucket
  deriving Repr, DecidableEq

/-- `RateLimiter.__init__`: store the config and create the two empty
`defaultdict` pools.  No validation of the config is performed. -/
def RateLimiter.create (config : RateLimitConfig) : RateLimiter :=
  { config := config, http_buckets := [], ws_buckets := [] }

/-- The `defaultdict` factory for the HTTP pool:
`TokenBucket(capacity=http_burst_limit, refill_rate=http_requests_per_minute / 60.0)`,
created at wall-clock instant `now`. -/
def httpFreshBucket (cfg : RateLimitConfig) (now : ℚ) : TokenBucket :=
  TokenBucket.create cfg.http_burst_limit ((cfg.http_requests_per_minute : ℚ) / 60) now

/-- The `defaultdict` factory for the WS pool. -/
def wsFreshBucket (cfg : RateLimitConfig) (now : ℚ) : TokenBucket :=
  TokenBucket.create cfg.ws_burst_limit ((cfg.ws_messages_per_minute : ℚ) / 60) now

/-- `RateLimiter.check_http(key)` at instant `now`: when disabled return
`(True, 0.0)`; otherwise get-or-create the key's bucket in the HTTP
pool, `consume(1)` on it, and report `(allowed, retry_after)` where
`retry_after` is `0.0` when allowed and `time_until_available(1)` of the
updated bucket otherwise. -/
def RateLimiter.check_http (rl : RateLimiter) (key : String) (now : ℚ) :
    RateLimiter × Bool × ℚ :=
  if rl.config.enabled = false then (rl, true, 0)
  else
    let b := (lookupA rl.http_buckets key).getD (httpFreshBucket rl.config now)
    let r := b.consume 1 now
    let retry := if r.2 then 0 else r.1.time_until_available 1
    ({ rl with http_buckets := insertA rl.http_buckets key r.1 }, r.2, retry)

/-- `RateLimiter.check_ws(key)` at instant `now`, against the WS pool. -/
def RateLimiter.check_ws (rl : RateLimiter) (key : String) (now : ℚ) :
    RateLimiter × Bool × ℚ :=
  if rl.config.enabled = false then (rl, true, 0)
  else
    let b := (lookupA rl.ws_buckets key).getD (wsFreshBucket rl.config now)
    let r := b.consume 1 now
    let retry := if r.2 then 0 else r.1.time_until_available 1
    ({ rl with ws_buckets := insertA rl.ws_buckets key r.1 }, r.2, retry)

/-- A sequence of `check_http(key)` calls at the given instants,
discarding the returned outcomes. -/
def RateLimiter.runHttp (rl : RateLimiter) (key : String) (ts : List ℚ) : RateLimiter :=
  ts.foldl (fun st t => (st.check_http key t).1) rl

/-- A sequence of `check_ws(key)` calls at the given instants. -/
def RateLimiter.runWs (rl : RateLimiter) (key : String) (ts : List ℚ) : RateLimiter :=
  ts.foldl (fun st t => (st.check_ws key t).1) rl

theorem check_http_config (rl : RateLimiter) (key : String) (now : ℚ) :
    (rl.check_http key now).1.config = rl.config := by
  unfold RateLimiter.check_http
  split <;> rfl

theorem check_http_ws_buckets (rl : RateLimiter) (key : String) (now : ℚ) :
    (rl.check_http key now).1.ws_buckets = rl.ws_buckets := by
  unfold RateLimiter.check_http
  split <;> rfl

theorem check_ws_config (rl : RateLimiter) (key : String) (now : ℚ) :
    (rl.check_ws key now).1.config = rl.config := by
  unfold RateLimiter.check_ws
  split <;> rfl

theorem check_ws_http_buckets (rl : RateLimiter) (key : String) (now : ℚ) :
    (rl.check_ws key now).1.http_buckets = rl.http_buckets := by
  unfold RateLimiter.check_ws
  split <;> rfl

theorem check_http_other_key (rl : RateLimiter) (a b : String) (now : ℚ)
    (h : a ≠ b) :
    lookupA (rl.check_http a now).1.http_buckets b = lookupA rl.http_buckets b := by
  unfold RateLimiter.check_http
  split
  · rfl
  · exact lookupA_insertA_ne _ _ _ _ h

theorem check_ws_other_key (rl : RateLimiter) (a b : String) (now : ℚ)
    (h : a ≠ b) :
    lookupA (rl.check_ws a now).1.ws_buckets b = lookupA rl.ws_buckets b := by
  unfold RateLimiter.check_ws
  split
  · rfl
  · exact lookupA_insertA_ne _ _ _ _ h

/-- The outcome `(allowed, retry_after)` of `check_http` as a function
of the config and of the key's pool entry alone. -/
def httpOutcome (cfg : RateLimitConfig) (entry : Option TokenBucket) (now : ℚ) :
    Bool × ℚ :=
  if cfg.enabled = false then (true, 0)
  else
    let r := (entry.getD (httpFreshBucket cfg now)).consume 1 now
    (r.2, if r.2 then 0 else r.1.time_until_available 1)

/-- The outcome of `check_ws` as a function of the config and of the
key's pool entry alone. -/
def wsOutcome (cfg : RateLimitConfig) (entry : Option TokenBucket) (now : ℚ) :
    Bool × ℚ :=
  if cfg.enabled = false then (true, 0)
  else
    let r := (entry.getD (wsFreshBucket cfg now)).consume 1 now
    (r.2, if r.2 then 0 else r.1.time_until_available 1)

theorem check_http_outcome (rl : RateLimiter) (key : String) (now : ℚ) :
    (rl.check_http key now).2 = httpOutcome rl.config (lookupA rl.http_buckets key) now := by
  unfold RateLimiter.check_http httpOutcome
  split <;> rfl

theorem check_ws_outcome (rl : RateLimiter) (key : String) (now : ℚ) :
    (rl.check_ws key now).2 = wsOutcome rl.config (lookupA rl.ws_buckets key) now := by
  unfold RateLimiter.check_ws wsOutcome
  split <;> rfl

theorem runHttp_frame (a b : String) (h : a ≠ b) :
    ∀ (ts : List ℚ) (rl : RateLimiter),
      (rl.runHttp a ts).config = rl.config ∧
      (rl.runHttp a ts).ws_buckets = rl.ws_buckets ∧
      lookupA (rl.runHttp a ts).http_buckets b = lookupA rl.http_buckets b := by
  intro ts
  induction ts with
  | nil => intro rl; exact ⟨rfl, rfl, rfl⟩
  | cons t rest ih =>
    intro rl
    have hstep := ih ((rl.check_http a t).1)
    refine ⟨?_, ?_, ?_⟩
    · exact hstep.1.trans (check_http_config rl a t)
    · exact hstep.2.1.trans (check_http_ws_buckets rl a t)
    · exact hstep.2.2.trans (check_http_other_key rl a b t h)

theorem runWs_frame (a b : String) (h : a ≠ b) :
    ∀ (ts : List ℚ) (rl : RateLimiter),
      (rl.runWs a ts).config = rl.config ∧
      (rl.runWs a ts).http_buckets = rl.http_buckets ∧
      lookupA (rl.runWs a ts).ws_buckets b = lookupA rl.ws_buckets b := by
  intro ts
  induction ts with
  | nil => intro rl; exact ⟨rfl, rfl, rfl⟩
  | cons t rest ih =>
    intro rl
    have hstep := ih ((rl.check_ws a t).1)
    refine ⟨?_, ?_, ?_⟩
    · exact hstep.1.trans (check_ws_config rl a t)
    · exact hstep.2.1.trans (check_ws_http_buckets rl a t)
    · exact hstep.2.2.trans (check_ws_other_key rl a b t h)

theorem runHttp_ws_frame :
    ∀ (ts : List ℚ) (rl : RateLimiter) (k : String),
      (rl.runHttp k ts).config = rl.config ∧
      (rl.runHttp k ts).ws_buckets = rl.ws_buckets := by
  intro ts
  induction ts with
  | nil => intro rl k; exact ⟨rfl, rfl⟩
  | cons t rest ih =>
    intro rl k
    have hstep := ih ((rl.check_http k t).1) k
    exact ⟨hstep.1.trans (check_http_config rl k t),
      hstep.2.trans (check_http_ws_buckets rl k t)⟩

theorem runWs_http_frame :
    ∀ (ts : List ℚ) (rl : RateLimiter) (k : String),
      (rl.runWs k ts).config = rl.config ∧
      (rl.runWs k ts).http_buckets = rl.http_buckets := by
  intro ts
  induction ts with
  | nil => intro rl k; exact ⟨rfl, rfl⟩
  | cons t rest ih =>
    intro rl k
    have hstep := ih ((rl.check_ws k t).1) k
    exact ⟨hstep.1.trans (check_ws_config rl k t),
      hstep.2.trans (check_ws_http_buckets rl k t)⟩

/-- C6: rate-limit quota isolation.  Any sequence of `check_http(A)`
calls leaves key `B`'s HTTP bucket, the whole WS pool and the config
untouched (for `A ≠ B`), so a subsequent `check_http(B)` outcome is
exactly what it would have been without the `A`-calls; and the HTTP and
WS pools are fully separate: `check_http(k)` sequences never change any
`check_ws` outcome and `check_ws(k)` sequences never change any
`check_http` outcome, even for the same key. -/
theorem rate_limiter_isolation (rl : RateLimiter) (A B : String) (hAB : A ≠ B)
    (ts : List ℚ) (t : ℚ) :
    lookupA (rl.runHttp A ts).http_buckets B = lookupA rl.http_buckets B ∧
    (rl.runHttp A ts).ws_buckets = rl.ws_buckets ∧
    ((rl.runHttp A ts).check_http B t).2 = (rl.check_http B t).2 ∧
    (∀ (k k' : String), ((rl.runHttp k ts).check_ws k' t).2 = (rl.check_ws k' t).2) ∧
    (∀ (k k' : String), ((rl.runWs k ts).check_http k' t).2 = (rl.check_http k' t).2) := by
  have hf := runHttp_frame A B hAB ts rl
  refine ⟨hf.2.2, hf.2.1, ?_, ?_, ?_⟩
  · rw [check_http_outcome, check_http_outcome, hf.1, hf.2.2]
  · intro k k'
    have hw := runHttp_ws_frame ts rl k
    rw [check_ws_outcome, check_ws_outcome, hw.1, hw.2]
  · intro k k'
    have hw := runWs_http_frame ts rl k
    rw [check_http_outcome, check_http_outcome, hw.1, hw.2]

theorem rate_limiter_isolation_witness :
    ("a" ≠ "b") ∧
    (lookupA ((RateLimiter.create RateLimitConfig.defaults).runHttp "a"
        [0, 0, 0]).http_buckets "b" =
      lookupA (RateLimiter.create RateLimitConfig.defaults).http_buckets "b" ∧
      ((RateLimiter.create RateLimitConfig.defaults).runHttp "a"
        [0, 0, 0]).ws_buckets =
        (RateLimiter.create RateLimitConfig.defaults).ws_buckets ∧
      (((RateLimiter.create RateLimitConfig.defaults).runHttp "a"
        [0, 0, 0]).check_http "b" 1).2 =
        ((RateLimiter.create RateLimitConfig.defaults).check_http "b" 1).2) := by
  have h := rate_limiter_isolation (RateLimiter.create RateLimitConfig.defaults)
    "a" "b" (by decide) [0, 0, 0] 1
  exact ⟨by decide, h.1, h.2.1, h.2.2.1⟩

/-! ## Construction performs no validation (C9) -/

/-- Constructing a `TokenBucket`, with the possibility of raising made
explicit: the dataclass `__init__` together with `__post_init__`
contains no validation and no `raise`, so every input — including a
non-positive `refill_rate` — yields `Except.ok` of the bucket. -/
def TokenBucketInitE (capacity : ℤ) (refill_rate : ℚ) (now : ℚ) :
    Except String TokenBucket :=
  Except.ok (TokenBucket.create capacity refill_rate now)

/-- Constructing a `RateLimiter`, with the possibility of raising made
explicit: `RateLimiter.__init__` stores the config and builds two empty
pools, with no validation and no `raise`. -/
def RateLimiterInitE (config : RateLimitConfig) : Except String RateLimiter :=
  Except.ok (RateLimiter.create config)

/-- C9 counterexample: construction with a malformed configuration does
NOT fail fast.  A `TokenBucket` with `refill_rate = -1` and a
`RateLimiter` whose config has `http_requests_per_minute = 0` are both
constructed successfully; the invalid bucket is created with its full
(invalid) state. -/
theorem construction_no_fail_fast :
    (TokenBucketInitE 5 (-1) 0).isOk = true ∧
    TokenBucketInitE 5 (-1) 0 = Except.ok
      { capacity := 5, refill_rate := -1, tokens := 5, last_refill := 0 } ∧
    (RateLimiterInitE
      { http_requests_per_minute := 0, http_burst_limit := 10,
        ws_messages_per_minute := 30, ws_burst_limit := 5,
        enabled := true }).isOk = true := by
  refine ⟨rfl, ?_, rfl⟩
  unfold TokenBucketInitE TokenBucket.create
  norm_num

/-- C9 amended: construction of a rate-limiting component never fails,
whatever the configuration: `TokenBucket` construction always returns
the bucket with `tokens` set to `capacity`, and `RateLimiter`
construction always returns the limiter with two empty pools — no
fail-fast validation exists. -/
theorem construction_always_succeeds (c : ℤ) (r now : ℚ) (cfg : RateLimitConfig) :
    TokenBucketInitE c r now = Except.ok
      { capacity := c, refill_rate := r, tokens := (c : ℚ), last_refill := now } ∧
    RateLimiterInitE cfg = Except.ok
      { config := cfg, http_buckets := [], ws_buckets := [] } := by
  exact ⟨rfl, rfl⟩

/-! ## ConnectionManager (websocket/manager.py) -/

/-- Message payloads are opaque to the manager (it only appends, lists
and clears them); model them as strings. -/
abbrev Msg := String

/-- A connection handle.  `sendOk` says whether a `send_json` on this
handle succeeds or raises; `wsId` distinguishes handles. -/
structure WebSocket where
  wsId : ℕ
  sendOk : Bool
  deriving Repr, DecidableEq

/-- `ConnectionManager` state: `_connections : dict[str, WebSocket]` and
`_session_history : dict[str, list[dict]]`. -/
structure ConnectionManager where
  connections : Assoc WebSocket
  session_history : Assoc (List Msg)
  deriving Repr, DecidableEq

/-- `ConnectionManager.__init__`: both dicts start empty. -/
def ConnectionManager.empty : ConnectionManager :=
  { connections := [], session_history := [] }

/-- `ConnectionManager.connect(websocket, session_id)`.  Python computes
`session_id = session_id or str(uuid.uuid4())`, so a missing OR empty
id is replaced by a fresh uuid (`fresh` here); the handle is registered
under the effective id and a history entry is created for it if absent.
Returns the updated manager and the effective session id. -/
def ConnectionManager.connect (m : ConnectionManager) (websocket : WebSocket)
    (sid? : Option String) (fresh : String) : ConnectionManager × String :=
  let sid := match sid? with
    | some s => if s = "" then fresh else s
    | none => fresh
  let conns := insertA m.connections sid websocket
  let hist :=
    if (lookupA m.session_history sid).isSome then m.session_history
    else insertA m.session_history sid []
  ({ connections := conns, session_history := hist }, sid)

/-- `ConnectionManager.disconnect(session_id)`:
`self._connections.pop(session_id, None)`; history untouched. -/
def ConnectionManager.disconnect (m : ConnectionManager) (sid : String) :
    ConnectionManager :=
  { m with connections := eraseA m.connections sid }

/-- `ConnectionManager.get_history(session_id)`:
`self._session_history.get(session_id, [])`.  The pair result makes the
state after the read explicit. -/
def ConnectionManager.get_history (m : ConnectionManager) (sid : String) :
    List Msg × ConnectionManager :=
  ((lookupA m.session_history sid).getD [], m)

/-- `ConnectionManager.add_to_history(session_id, message)`: create the
entry (empty) if absent, then append. -/
def ConnectionManager.add_to_history (m : ConnectionManager) (sid : String)
    (message : Msg) : ConnectionManager :=
  { m with session_history :=
      insertA m.session_history sid ((lookupA m.session_history sid).getD [] ++ [message]) }

/-- `ConnectionManager.clear_history(session_id)`:
`self._session_history[session_id] = []`, installing an empty entry even
for an unknown id. -/
def ConnectionManager.clear_history (m : ConnectionManager) (sid : String) :
    ConnectionManager :=
  { m with session_history := insertA m.session_history sid [] }

/-- `ConnectionManager.send_message(session_id, message)`: look up the
handle; if present, attempt delivery — success returns `True`, a raise
from `send_json` is caught and treated as a disconnect, returning
`False`; if absent, return `False` without attempting delivery. -/
def ConnectionManager.send_message (m : ConnectionManager) (sid : String)
    (message : Msg) : ConnectionManager × Bool :=
  match lookupA m.connections sid with
  | some ws => if ws.sendOk then (m, true) else (m.disconnect sid, false)
  | none => (m, false)

/-- The sweep of `ConnectionManager.broadcast`: iterate over all
registered handles in order, attempting delivery to each; a raise is
caught and the session id collected.  Returns the session ids delivered
to and the collected failures, both in iteration order. -/
def broadcastSweep : Assoc WebSocket → List String × List String
  | [] => ([], [])
  | (sid, ws) :: rest =>
    let r := broadcastSweep rest
    if ws.sendOk then (sid :: r.1, r.2) else (r.1, sid :: r.2)

/-- `ConnectionManager.broadcast(message)`: sweep every registered
handle, then prune the collected failures by calling `disconnect` on
each.  Returns the updated manager and the session ids that received
the message. -/
def ConnectionManager.broadcast (m : ConnectionManager) (message : Msg) :
    ConnectionManager × List String :=
  let r := broadcastSweep m.connections
  (r.2.foldl (fun st sid => st.disconnect sid) m, r.1)

/-- `ConnectionManager.active_connections`: `len(self._connections)`. -/
def ConnectionManager.active_connections (m : ConnectionManager) : ℕ :=
  m.connections.length

/-- C7: `send_message` on a session with no registered handle returns
`False` and changes nothing (no phantom handle or history entry); on a
session whose handle's delivery raises, it removes that handle (leaving
every other handle and all histories untouched) and returns `False`.
The embedding is a total function: no exception reaches the caller. -/
theorem send_message_spec (m : ConnectionManager) (sid : String) (message : Msg) :
    (lookupA m.connections sid = none →
      m.send_message sid message = (m, false)) ∧
    (∀ ws : WebSocket, lookupA m.connections sid = some ws → ws.sendOk = false →
      (m.send_message sid message).2 = false ∧
      lookupA (m.send_message sid message).1.connections sid = none ∧
      (∀ s', s' ≠ sid →
        lookupA (m.send_message sid message).1.connections s' =
          lookupA m.connections s') ∧
      (m.send_message sid message).1.session_history = m.session_history) := by
  constructor
  · intro h
    unfold ConnectionManager.send_message
    rw [h]
  · intro ws hws hfail
    unfold ConnectionManager.send_message
    rw [hws]
    dsimp only
    rw [hfail]
    simp only [Bool.false_eq_true, if_false]
    refine ⟨trivial, ?_, ?_, by rfl⟩
    · exact lookupA_eraseA_self m.connections sid
    · intro s' hs'
      exact lookupA_eraseA_ne m.connections sid s' (fun h => hs' h.symm)

theorem send_message_spec_witness :
    (lookupA (ConnectionManager.empty).connections "nope" = none ∧
      ConnectionManager.empty.send_message "nope" "hello" =
        (ConnectionManager.empty, false)) ∧
    (lookupA (ConnectionManager.mk [("a", ⟨1, false⟩)] [("a", ["m"])]).connections "a" =
        some ⟨1, false⟩ ∧
      ((ConnectionManager.mk [("a", ⟨1, false⟩)] [("a", ["m"])]).send_message
        "a" "hello").2 = false ∧
      lookupA ((ConnectionManager.mk [("a", ⟨1, false⟩)] [("a", ["m"])]).send_message
        "a" "hello").1.connections "a" = none ∧
      ((ConnectionManager.mk [("a", ⟨1, false⟩)] [("a", ["m"])]).send_message
        "a" "hello").1.session_history = [("a", ["m"])]) := by
  have h1 := (send_message_spec ConnectionManager.empty "nope" "hello").1 (by rfl)
  have h2 := (send_message_spec (ConnectionManager.mk [("a", ⟨1, false⟩)]
    [("a", ["m"])]) "a" "hello").2 ⟨1, false⟩ (by rfl) rfl
  exact ⟨⟨rfl, h1⟩, ⟨rfl, h2.1, h2.2.1, h2.2.2.2⟩⟩

/-- C10: `get_history` on a session id that never had an entry returns
the empty list and leaves the manager unchanged (the read creates no
entry) — in contrast to `add_to_history`, which creates the entry on
first append, and `clear_history`, which installs an empty entry even
for an unknown id. -/
theorem get_history_frame (m : ConnectionManager) (sid : String) (message : Msg)
    (h : lookupA m.session_history sid = none) :
    (m.get_history sid).1 = [] ∧
    (m.get_history sid).2 = m ∧
    lookupA (m.add_to_history sid message).session_history sid = some [message] ∧
    lookupA (m.clear_history sid).session_history sid = some [] := by
  refine ⟨?_, rfl, ?_, ?_⟩
  · unfold ConnectionManager.get_history
    rw [h]
    rfl
  · unfold ConnectionManager.add_to_history
    dsimp only
    rw [lookupA_insertA_self, h]
    rfl
  · unfold ConnectionManager.clear_history
    dsimp only
    rw [lookupA_insertA_self]

theorem get_history_frame_witness :
    (lookupA (ConnectionManager.mk [] [("x", ["m0"])]).session_history "y" = none) ∧
    ((ConnectionManager.mk [] [("x", ["m0"])]).get_history "y").1 = [] ∧
    ((ConnectionManager.mk [] [("x", ["m0"])]).get_history "y").2 =
      ConnectionManager.mk [] [("x", ["m0"])] ∧
    lookupA ((ConnectionManager.mk [] [("x", ["m0"])]).add_to_history "y"
      "m1").session_history "y" = some ["m1"] ∧
    lookupA ((ConnectionManager.mk [] [("x", ["m0"])]).clear_history
      "y").session_history "y" = some [] := by
  have h := get_history_frame (ConnectionManager.mk [] [("x", ["m0"])]) "y" "m1"
    (by decide)
  exact ⟨by decide, h.1, h.2.1, h.2.2.1, h.2.2.2⟩

/-- The C2 protocol: `connect(ws1, s)`, append each message of `ms` via
`add_to_history(s, ·)`, `disconnect(s)`, then `connect(ws2, s)` again.
`f1`, `f2` stand for the uuids `connect` would generate. -/
def reconnectRun (m0 : ConnectionManager) (s : String) (ms : List Msg)
    (ws1 ws2 : WebSocket) (f1 f2 : String) : ConnectionManager :=
  let m1 := (m0.connect ws1 (some s) f1).1
  let m2 := ms.foldl (fun st msg => st.add_to_history s msg) m1
  let m3 := m2.disconnect s
  (m3.connect ws2 (some s) f2).1

theorem ensure_entry_view (h : Assoc (List Msg)) (e s : String) :
    (lookupA (if (lookupA h e).isSome then h else insertA h e []) s).getD [] =
      (lookupA h s).getD [] := by
  by_cases he : (lookupA h e).isSome
  · rw [if_pos he]
  · rw [if_neg he]
    by_cases hs : e = s
    · subst hs
      rw [lookupA_insertA_self]
      rw [Option.not_isSome_iff_eq_none] at he
      rw [he]
      rfl
    · rw [lookupA_insertA_ne _ _ _ _ hs]

theorem connect_history_view (m : ConnectionManager) (ws : WebSocket)
    (sid? : Option String) (f s : String) :
    (lookupA ((m.connect ws sid? f).1).session_history s).getD [] =
      (lookupA m.session_history s).getD [] :=
  ensure_entry_view m.session_history ((m.connect ws sid? f).2) s

theorem add_to_history_view (m : ConnectionManager) (s : String) (msg : Msg) :
    (lookupA (m.add_to_history s msg).session_history s).getD [] =
      (lookupA m.session_history s).getD [] ++ [msg] := by
  unfold ConnectionManager.add_to_history
  dsimp only
  rw [lookupA_insertA_self]
  rfl

theorem fold_add_view :
    ∀ (ms : List Msg) (m : ConnectionManager) (s : String),
      (lookupA (ms.foldl (fun st msg => st.add_to_history s msg) m).session_history
        s).getD [] = (lookupA m.session_history s).getD [] ++ ms := by
  intro ms
  induction ms with
  | nil => intro m s; simp
  | cons x rest ih =>
    intro m s
    simp only [List.foldl_cons]
    rw [ih, add_to_history_view]
    simp

/-- C2 counterexample: the round trip does not return exactly `ms` for
every starting manager.  A manager whose history for session `"s"`
already holds `["old"]`, run through connect/append-nothing/disconnect/
connect with `ms = []`, answers `["old"]`, not `[]`. -/
theorem reconnect_history_counterexample :
    ((reconnectRun (ConnectionManager.mk [] [("s", ["old"])]) "s" []
      ⟨1, true⟩ ⟨2, true⟩ "f1" "f2").get_history "s").1 ≠ ([] : List Msg) := by
  decide

/-- C2 amended: after `connect(ws1, s)`, appending `ms`, `disconnect(s)`
and `connect(ws2, s)`, `getHistory(s)` returns the starting manager's
history for `s` followed by `ms`, in order — exactly `ms` whenever `s`
had no prior history (e.g. from a fresh manager).  History survives the
disconnect/reconnect. -/
theorem reconnect_history_roundtrip (m0 : ConnectionManager) (s : String)
    (ms : List Msg) (ws1 ws2 : WebSocket) (f1 f2 : String) :
    ((reconnectRun m0 s ms ws1 ws2 f1 f2).get_history s).1 =
      (m0.get_history s).1 ++ ms := by
  show (lookupA ((reconnectRun m0 s ms ws1 ws2 f1 f2)).session_history s).getD [] =
    (lookupA m0.session_history s).getD [] ++ ms
  unfold reconnectRun
  dsimp only
  rw [connect_history_view]
  show (lookupA (ms.foldl (fun st msg => st.add_to_history s msg)
    ((m0.connect ws1 (some s) f1).1)).session_history s).getD [] = _
  rw [fold_add_view, connect_history_view]

/-! ## Auth gate (websocket/auth.py) -/

/-- Custom close code `4001`: authentication token required. -/
def WS_CLOSE_AUTH_REQUIRED : ℕ := 4001

/-- Custom close code `4002`: invalid authentication token. -/
def WS_CLOSE_AUTH_FAILED : ℕ := 4002

/-- `verify_token(token, expected_token)`: `False` when `token is None`,
otherwise `secrets.compare_digest(token, expected_token)`, i.e. string
equality (computed in constant time in the source). -/
def verify_token (token : Option String) (expected_token : String) : Bool :=
  match token with
  | none => false
  | some t => t == expected_token

/-- `is_auth_enabled(auth_token)`: `bool(auth_token)`, i.e. the token is
non-empty. -/
def is_auth_enabled (auth_token : String) : Bool :=
  auth_token != ""

/-- `authenticate_websocket(websocket, token, app_state)`, with
`expected_token = app_state.settings.websocket_auth_token`.  Returns the
boolean result together with the close code sent to the connection
(`none` when the connection is not closed). -/
def authenticate_websocket (token : Option String) (expected_token : String) :
    Bool × Option ℕ :=
  if is_auth_enabled expected_token = false then (true, none)
  else
    match token with
    | none => (false, some WS_CLOSE_AUTH_REQUIRED)
    | some t =>
      if verify_token (some t) expected_token = false then
        (false, some WS_CLOSE_AUTH_FAILED)
      else (true, none)

/-- C8: `authenticate` returns `true` and closes nothing iff auth is
disabled (`e = ""`) or the provided token equals the expected one; with
auth enabled, a missing token closes with the `auth required` code and a
wrong token with the distinct `auth failed` code, both returning
`false`, and both codes lie outside the normal `1000-2999` range;
`verify_token` is `false` on a missing token and string equality on a
present one (equal empty strings compare `true`). -/
theorem authenticate_spec (token : Option String) (e : String) :
    (authenticate_websocket token e = (true, none) ↔ (e = "" ∨ token = some e)) ∧
    (e ≠ "" → token = none →
      authenticate_websocket token e = (false, some WS_CLOSE_AUTH_REQUIRED)) ∧
    (e ≠ "" → ∀ p, token = some p → p ≠ e →
      authenticate_websocket token e = (false, some WS_CLOSE_AUTH_FAILED)) ∧
    2999 < WS_CLOSE_AUTH_REQUIRED ∧ 2999 < WS_CLOSE_AUTH_FAILED ∧
    WS_CLOSE_AUTH_REQUIRED ≠ WS_CLOSE_AUTH_FAILED ∧
    verify_token none e = false ∧
    (∀ p, verify_token (some p) e = (p == e)) ∧
    verify_token (some "") "" = true := by
  refine ⟨?_, ?_, ?_, by decide, by decide, by decide, rfl, fun p => rfl, by decide⟩
  · by_cases he : e = ""
    · subst he
      constructor
      · intro _
        exact Or.inl rfl
      · intro _
        rfl
    · unfold authenticate_websocket is_auth_enabled
      rw [if_neg (by simp [he])]
      cases token with
      | none => simp [he, WS_CLOSE_AUTH_REQUIRED]
      | some t =>
        by_cases ht : t = e
        · subst ht
          simp [verify_token]
        · simp [verify_token, ht, he, WS_CLOSE_AUTH_FAILED]
  · intro he htok
    subst htok
    unfold authenticate_websocket is_auth_enabled
    rw [if_neg (by simp [he])]
  · intro he p htok hp
    subst htok
    unfold authenticate_websocket is_auth_enabled
    rw [if_neg (by simp [he])]
    simp [verify_token, hp]

theorem authenticate_spec_witness :
    ("secret" ≠ "") ∧
    authenticate_websocket none "secret" = (false, some WS_CLOSE_AUTH_REQUIRED) ∧
    authenticate_websocket (some "wrong") "secret" =
      (false, some WS_CLOSE_AUTH_FAILED) ∧
    authenticate_websocket (some "secret") "secret" = (true, none) := by
  have h1 := (authenticate_spec none "secret").2.1 (by decide) rfl
  have h2 := (authenticate_spec (some "wrong") "secret").2.2.1 (by decide)
    "wrong" rfl (by decide)
  have h3 := (authenticate_spec (some "secret") "secret").1.mpr (Or.inr rfl)
  exact ⟨by decide, h1, h2, h3⟩

theorem broadcastSweep_eq (cs : Assoc WebSocket) :
    broadcastSweep cs =
      ((cs.filter (fun p => p.2.sendOk)).map Prod.fst,
       (cs.filter (fun p => !p.2.sendOk)).map Prod.fst) := by
  induction cs with
  | nil => rfl
  | cons p rest ih =>
    obtain ⟨sid, ws⟩ := p
    simp only [broadcastSweep, ih, List.filter_cons]
    cases hws : ws.sendOk <;> simp [hws]

theorem filter_beq_of_nodup {l : List String} {a : String}
    (hnd : l.Nodup) (ha : a ∈ l) : l.filter (fun x => x == a) = [a] := by
  induction l with
  | nil => cases ha
  | cons x rest ih =>
    rw [List.nodup_cons] at hnd
    rw [List.filter_cons]
    rcases List.mem_cons.mp ha with h | h
    · rw [if_pos (by simp [h.symm])]
      have hrest : rest.filter (fun y => y == a) = [] := by
        rw [List.filter_eq_nil_iff]
        intro b hb
        simp only [beq_iff_eq]
        intro hba
        exact hnd.1 ((hba.trans h) ▸ hb)
      rw [hrest]
      simp [h]
    · have hxa : x ≠ a := fun hxa => hnd.1 (hxa ▸ h)
      rw [if_neg (by simp [hxa])]
      exact ih hnd.2 h

theorem map_fst_filter_key {α : Type} (l : List (String × α)) (a : String) :
    (l.filter (fun p => p.1 == a)).map Prod.fst =
      (l.map Prod.fst).filter (fun x => x == a) := by
  induction l with
  | nil => rfl
  | cons p rest ih =>
    simp only [List.filter_cons, List.map_cons]
    cases hp : (p.1 == a) <;> simp [hp, ih]

theorem map_fst_filter_key_ne {α : Type} (l : List (String × α)) (a : String) :
    (l.filter (fun p => p.1 != a)).map Prod.fst =
      (l.map Prod.fst).filter (fun x => x != a) := by
  induction l with
  | nil => rfl
  | cons p rest ih =>
    simp only [List.filter_cons, List.map_cons]
    cases hp : (p.1 != a) <;> simp [hp, ih]

theorem count_filter_ne {l : List String} {a fs : String} (h : a ≠ fs) :
    (l.filter (fun x => x != fs)).count a = l.count a := by
  induction l with
  | nil => rfl
  | cons x rest ih =>
    rw [List.filter_cons]
    by_cases hx : x = fs
    · rw [if_neg (by simp [hx]), ih, List.count_cons]
      have hfa : ¬fs = a := fun hh => h hh.symm
      simp [hx, h, hfa]
    · rw [if_pos (by simp [hx]), List.count_cons, List.count_cons, ih]

theorem length_filter_key_split {α : Type} (l : List (String × α)) (a : String) :
    (l.filter (fun p => p.1 != a)).length + (l.filter (fun p => p.1 == a)).length =
      l.length := by
  induction l with
  | nil => rfl
  | cons p rest ih =>
    simp only [List.filter_cons]
    by_cases hp : p.1 = a
    · rw [if_neg (by simp [hp]), if_pos (by simp [hp])]
      simp only [List.length_cons]
      omega
    · rw [if_pos (by simp [hp]), if_neg (by simp [hp])]
      simp only [List.length_cons]
      omega

/-- C1: if exactly one registered handle fails delivery, `broadcast`
delivers to each of the other `N-1` handles exactly once, prunes only
the failing session after the full sweep, and returns normally:
afterwards `activeConnections` is `N-1`, the failing handle is gone,
every other handle is still registered, and all session histories are
unchanged. -/
theorem broadcast_one_failure (m : ConnectionManager) (message : Msg)
    (fs : String) (wsf : WebSocket)
    (hnd : (m.connections.map Prod.fst).Nodup)
    (hmem : (fs, wsf) ∈ m.connections)
    (hone : ∀ p ∈ m.connections, p.2.sendOk = false ↔ p.1 = fs) :
    (∀ sid : String, sid ∈ m.connections.map Prod.fst → sid ≠ fs →
      (m.broadcast message).2.count sid = 1) ∧
    fs ∉ (m.broadcast message).2 ∧
    (m.broadcast message).1.active_connections + 1 = m.active_connections ∧
    lookupA (m.broadcast message).1.connections fs = none ∧
    (∀ sid, sid ≠ fs →
      lookupA (m.broadcast message).1.connections sid =
        lookupA m.connections sid) ∧
    (m.broadcast message).1.session_history = m.session_history := by
  have hfilter_fail : m.connections.filter (fun p => !p.2.sendOk) =
      m.connections.filter (fun p => p.1 == fs) := by
    apply List.filter_congr
    intro p hp
    have h := hone p hp
    cases hso : p.2.sendOk
    · simp only [Bool.not_false]
      exact (by simp [h.mp hso] : true = (p.1 == fs))
    · simp only [Bool.not_true]
      have hne : p.1 ≠ fs := fun hh => by
        rw [h.mpr hh] at hso
        exact Bool.noConfusion hso
      simp [hne]
  have hfilter_ok : m.connections.filter (fun p => p.2.sendOk) =
      m.connections.filter (fun p => p.1 != fs) := by
    apply List.filter_congr
    intro p hp
    have h := hone p hp
    cases hso : p.2.sendOk
    · simp [h.mp hso]
    · have hne : p.1 ≠ fs := fun hh => by
        rw [h.mpr hh] at hso
        exact Bool.noConfusion hso
      simp [hne]
  have hfs_mem : fs ∈ m.connections.map Prod.fst :=
    List.mem_map.mpr ⟨(fs, wsf), hmem, rfl⟩
  have hkey : (m.connections.filter (fun p => p.1 == fs)).map Prod.fst = [fs] := by
    rw [map_fst_filter_key]
    exact filter_beq_of_nodup hnd hfs_mem
  have hfail_list : (broadcastSweep m.connections).2 = [fs] := by
    rw [broadcastSweep_eq]
    dsimp only
    rw [hfilter_fail, hkey]
  have hdeliv : (broadcastSweep m.connections).1 =
      (m.connections.map Prod.fst).filter (fun x => x != fs) := by
    rw [broadcastSweep_eq]
    dsimp only
    rw [hfilter_ok, map_fst_filter_key_ne]
  have hm1 : (m.broadcast message).1 = m.disconnect fs := by
    unfold ConnectionManager.broadcast
    dsimp only
    rw [hfail_list]
    rfl
  have hm2 : (m.broadcast message).2 =
      (m.connections.map Prod.fst).filter (fun x => x != fs) := by
    unfold ConnectionManager.broadcast
    dsimp only
    rw [hdeliv]
  refine ⟨?_, ?_, ?_, ?_, ?_, ?_⟩
  · intro sid hsid hne
    rw [hm2]
    rw [count_filter_ne hne]
    exact List.count_eq_one_of_mem hnd hsid
  · rw [hm2]
    simp
  · rw [hm1]
    show (eraseA m.connections fs).length + 1 = m.connections.length
    have hsplit := length_filter_key_split m.connections fs
    have hlen1 : (m.connections.filter (fun p => p.1 == fs)).length = 1 := by
      have := congrArg List.length hkey
      simpa using this
    unfold eraseA
    omega
  · rw [hm1]
    exact lookupA_eraseA_self m.connections fs
  · intro sid hne
    rw [hm1]
    exact lookupA_eraseA_ne m.connections fs sid (fun h => hne h.symm)
  · rw [hm1]
    rfl

/-- Concrete three-session manager used to witness `broadcast_one_failure`:
sessions `"a"` and `"c"` deliver, `"b"` throws. -/
def broadcastWitnessM : ConnectionManager :=
  { connections := [("a", ⟨1, true⟩), ("b", ⟨2, false⟩), ("c", ⟨3, true⟩)],
    session_history := [("a", ["hello"])] }

theorem broadcast_one_failure_witness :
    ((broadcastWitnessM.connections.map Prod.fst).Nodup ∧
      ("b", (⟨2, false⟩ : WebSocket)) ∈ broadcastWitnessM.connections ∧
      (∀ p ∈ broadcastWitnessM.connections, p.2.sendOk = false ↔ p.1 = "b")) ∧
    ((broadcastWitnessM.broadcast "ping").2.count "a" = 1 ∧
      (broadcastWitnessM.broadcast "ping").2.count "c" = 1 ∧
      "b" ∉ (broadcastWitnessM.broadcast "ping").2 ∧
      (broadcastWitnessM.broadcast "ping").1.active_connections + 1 =
        broadcastWitnessM.active_connections ∧
      lookupA (broadcastWitnessM.broadcast "ping").1.connections "b" = none ∧
      (broadcastWitnessM.broadcast "ping").1.session_history =
        broadcastWitnessM.session_history) := by
  have h := broadcast_one_failure broadcastWitnessM "ping" "b" ⟨2, false⟩
    (by decide) (by decide) (by decide)
  refine ⟨⟨by decide, by decide, by decide⟩, ?_⟩
  exact ⟨h.1 "a" (by decide) (by decide), h.1 "c" (by decide) (by decide),
    h.2.1, h.2.2.1, h.2.2.2.1, h.2.2.2.2.2⟩

end AppointmentCore
